import Mathlib

/-
Verification of the har-replay-proxy replay engine (src/index.js) against its
natural-language specification.  The JavaScript source is shallowly embedded:
JS objects become structures, `undefined`/`null` become `Option`, JS numbers
become `Int`/`ℚ`, `Buffer` values become an explicit `JsBuffer` datatype, and
a thrown JS exception becomes `Except.error`.  The per-request mutation of a
recorded HAR entry (its lazily cached decoded buffer) is modelled by explicit
state passing: the request handler returns the updated entry list.
-/

namespace HarReplay

/-- Decidable equality for `Except`, written without tactics so that `decide`
can evaluate it. -/
instance {ε α : Type} [DecidableEq ε] [DecidableEq α] : DecidableEq (Except ε α) :=
  fun a b =>
    match a, b with
    | .error e, .error f =>
      match decEq e f with
      | isTrue h => isTrue (congrArg Except.error h)
      | isFalse h => isFalse (fun hh => h (Except.error.injEq e f ▸ hh))
    | .ok x, .ok y =>
      match decEq x y with
      | isTrue h => isTrue (congrArg Except.ok h)
      | isFalse h => isFalse (fun hh => h (Except.ok.injEq x y ▸ hh))
    | .error _, .ok _ => isFalse (fun hh => Except.noConfusion hh)
    | .ok _, .error _ => isFalse (fun hh => Except.noConfusion hh)

/-! ## JavaScript truthiness helpers -/

/-- Truthiness of a JS string value (`"" ` is falsy). -/
def jsStrTruthy (s : String) : Bool := decide (s ≠ "")

/-- Truthiness of a possibly-undefined JS string (`undefined` and `""` are falsy). -/
def jsStrOptTruthy : Option String → Bool
  | none => false
  | some s => jsStrTruthy s

/-- Truthiness of a possibly-undefined JS number (`undefined` and `0` are falsy). -/
def jsNumTruthy : Option Int → Bool
  | none => false
  | some n => decide (n ≠ 0)

/-- JS `a || b` for a possibly-undefined string `a` with default `b`. -/
def jsStrOr (o : Option String) (d : String) : String :=
  match o with
  | none => d
  | some s => if s = "" then d else s

/-! ## String utilities

Structurally recursive replacements for the core string functions (whose
position-based recursion does not reduce inside the kernel).  They operate on
the character list of a `String`. -/

/-- Split a character list at every occurrence of `c` (like JS `split`). -/
def splitChar (c : Char) : List Char → List (List Char)
  | [] => [[]]
  | x :: xs =>
    let r := splitChar c xs
    if x = c then [] :: r
    else
      match r with
      | [] => [[x]]
      | y :: ys => (x :: y) :: ys

/-- Whitespace recognized by `String.trim`. -/
def isSpaceChar (c : Char) : Bool :=
  c == ' ' || c == '\t' || c == '\n' || c == '\r'

/-- Strip leading and trailing whitespace. -/
def trimChars (l : List Char) : List Char :=
  ((l.dropWhile isSpaceChar).reverse.dropWhile isSpaceChar).reverse

/-- ASCII lowercase of one character (JS `toLowerCase` on header names). -/
def lowerChar (c : Char) : Char :=
  if 'A' ≤ c ∧ c ≤ 'Z' then Char.ofNat (c.toNat + 32) else c

/-- ASCII lowercase of a string. -/
def lowerStr (s : String) : String :=
  String.mk (s.toList.map lowerChar)

/-- Does `s` start with `p`? -/
def startsWithStr (s p : String) : Bool :=
  p.toList.isPrefixOf s.toList

/-- Does `s` end with `p`? -/
def endsWithStr (s p : String) : Bool :=
  p.toList.isSuffixOf s.toList

/-- The remainder of a character list after the first `"://"`, if any. -/
def afterSchemeSep : List Char → Option (List Char)
  | ':' :: '/' :: '/' :: rest => some rest
  | _ :: rest => afterSchemeSep rest
  | [] => none

/-! ## Buffers

A Node `Buffer` is modelled symbolically: `str enc t` is `Buffer.from(t, enc)`
and `raw bs` is a byte sequence read from disk.  Structural equality of
`JsBuffer` refines byte equality: two buffers built by the same decode of the
same stored text are equal. -/

inductive JsBuffer where
  /-- `Buffer.from(text, encoding)` -/
  | str (encoding : String) (text : String)
  /-- bytes obtained from the file system -/
  | raw (bytes : List Nat)
deriving DecidableEq, Repr

/-- Value of one base64 alphabet character, `none` for non-alphabet characters
(which Node's base64 decoder skips). -/
def base64CharVal (c : Char) : Option Nat :=
  if 'A' ≤ c ∧ c ≤ 'Z' then some (c.toNat - 65)
  else if 'a' ≤ c ∧ c ≤ 'z' then some (c.toNat - 97 + 26)
  else if '0' ≤ c ∧ c ≤ '9' then some (c.toNat - 48 + 52)
  else if c = '+' then some 62
  else if c = '/' then some 63
  else none

/-- Decode a list of 6-bit values into bytes, four values to three bytes. -/
def base64Groups : List Nat → List Nat
  | a :: b :: c :: d :: rest =>
    let n := ((a * 64 + b) * 64 + c) * 64 + d
    n / 65536 % 256 :: n / 256 % 256 :: n % 256 :: base64Groups rest
  | [a, b, c] =>
    let n := (a * 64 + b) * 64 + c
    [n / 1024 % 256, n / 4 % 256]
  | [a, b] =>
    let n := a * 64 + b
    [n / 16 % 256]
  | _ => []

/-- Bytes to characters, one byte per character (exact for ASCII payloads;
multi-byte UTF-8 sequences are approximated code-unit-wise, which no claim
depends on). -/
def asciiOfBytes (bs : List Nat) : String :=
  String.mk (bs.map Char.ofNat)

/-- `buffer.toString('utf8')`. -/
def jsBufferToUtf8 : JsBuffer → String
  | .str enc t =>
    if enc == "base64" then asciiOfBytes (base64Groups (t.toList.filterMap base64CharVal))
    else t
  | .raw bs => asciiOfBytes bs

/-! ## Content types

Model of the `content-type-parser` npm dependency used by src/index.js: a
parsed content type has a type, a subtype and ordered parameters, and parsing
returns `null` (here `none`) when the string is not `token "/" token`. -/

structure ContentType where
  mainType : String
  subtype : String
  params : List (String × String)
deriving DecidableEq, Repr

/-- A nonempty run of characters acceptable inside a type or subtype token. -/
def isTokenChars (l : List Char) : Bool :=
  !l.isEmpty && l.all (fun c => !(c == ' ') && !(c == '\t') && !(c == '/'))

/-- Model of `content-type-parser`: parse `type "/" subtype (";" k "=" v)*`;
malformed strings (in particular any string without a slash) yield `none`. -/
def parseContentType (s : String) : Option ContentType :=
  match splitChar ';' s.toList with
  | [] => none
  | main :: rest =>
    match splitChar '/' (trimChars main) with
    | [t, sub] =>
      if isTokenChars t && isTokenChars sub then
        some { mainType := String.mk t, subtype := String.mk sub
             , params := rest.filterMap (fun seg =>
                 match splitChar '=' seg with
                 | k :: v :: vs =>
                   some (String.mk (trimChars k), String.mk (List.intercalate ['='] (v :: vs)))
                 | _ => none) }
      else none
    | _ => none

/-- `ct.get(key)`. -/
def ContentType.get (ct : ContentType) (k : String) : Option String :=
  (ct.params.find? (fun p => decide (p.1 = k))).map (fun p => p.2)

/-- `ct.set(key, value)`: update an existing parameter in place or append. -/
def ContentType.set (ct : ContentType) (k v : String) : ContentType :=
  if ct.params.any (fun p => decide (p.1 = k)) then
    { ct with params := ct.params.map (fun p => if p.1 = k then (k, v) else p) }
  else
    { ct with params := ct.params ++ [(k, v)] }

/-- `ct.toString()`. -/
def ContentType.toStr (ct : ContentType) : String :=
  ct.mainType ++ "/" ++ ct.subtype ++
    String.join (ct.params.map (fun p => ";" ++ p.1 ++ "=" ++ p.2))

/-- `ct.isText()`. -/
def ContentType.isText (ct : ContentType) : Bool := ct.mainType == "text"

/-- `ct.isXML()`. -/
def ContentType.isXML (ct : ContentType) : Bool :=
  (ct.subtype == "xml" && (ct.mainType == "text" || ct.mainType == "application"))
    || endsWithStr ct.subtype "+xml"

/-! ## HAR data model -/

/-- One recorded (or outgoing) header name/value pair. -/
structure HarHeader where
  name : String
  value : String
deriving DecidableEq, Repr

/-- `entry.response.content`: the stored payload of a recorded exchange plus
the lazily cached decoded buffer. -/
structure Content where
  mimeType : Option String
  size : Option Int
  text : Option String
  buffer : Option JsBuffer
deriving DecidableEq, Repr

/-- `entry.response`; `harError` models the `_error` capture-error marker. -/
structure EntryResponse where
  status : Option Int
  harError : Option String
  headers : List HarHeader
  content : Content
deriving DecidableEq, Repr

/-- `entry.request` in the HAR file. -/
structure HarRequest where
  method : String
  url : String
deriving DecidableEq, Repr

/-- One recorded exchange; the shim entry built for a locally mapped file has
no `request` field. -/
structure Entry where
  request : Option HarRequest
  response : EntryResponse
deriving DecidableEq, Repr

/-- An incoming live HTTP request. -/
structure JsRequest where
  method : String
  url : String
deriving DecidableEq, Repr

/-! ## URL parsing (model of Node `url.parse`) -/

/-- Path of a URL, ignoring the query string and the scheme/host part. -/
def urlPath (u : String) : String :=
  let noQ := (splitChar '?' u.toList).headD []
  match afterSchemeSep noQ with
  | some rest =>
    let path := rest.dropWhile (fun ch => !(ch == '/'))
    if path.isEmpty then "/" else String.mk path
  | none => String.mk noQ

/-- Query parameters of a URL as ordered name/value pairs. -/
def urlParams (u : String) : List (String × String) :=
  match splitChar '?' u.toList with
  | _ :: q :: _ =>
    if q.isEmpty then []
    else (splitChar '&' q).filterMap (fun kv =>
      if kv.isEmpty then none
      else match splitChar '=' kv with
        | [k] => some (String.mk k, "")
        | k :: v :: vs => some (String.mk k, String.mk (List.intercalate ['='] (v :: vs)))
        | [] => none)
  | _ => []

/-! ## Entry matcher -/

/-- A recorded entry is a candidate for a request when its method matches and
its URL path (ignoring the query string) matches exactly. -/
def isCandidate (e : Entry) (req : JsRequest) : Bool :=
  match e.request with
  | none => false
  | some r => r.method == req.method && urlPath r.url == urlPath req.url

/-- Heuristic score of a candidate: query parameters matching in name and
value on both sides count +1, parameters present on one side only count -1. -/
def entryScore (e : Entry) (req : JsRequest) : Int :=
  match e.request with
  | none => 0
  | some r =>
    let rp := urlParams req.url
    let ep := urlParams r.url
    (rp.filter (fun p => ep.contains p)).length
      - (rp.filter (fun p => !(ep.contains p))).length
      - (ep.filter (fun p => !(rp.contains p))).length

/-- Exact full-URL match: identical path and identical query parameter set. -/
def isExactMatch (e : Entry) (req : JsRequest) : Bool :=
  isCandidate e req &&
    (match e.request with
     | none => false
     | some r =>
       let rp := urlParams req.url
       let ep := urlParams r.url
       rp.all (fun p => ep.contains p) && ep.all (fun p => rp.contains p))

/-- Modelled from the spec: the entry-matching heuristic (the module
`heuristic.js` required by src/index.js is not under src/).  Per spec section
4.2: candidates are the exchanges whose method matches and whose path matches
exactly; an exact full-URL match short-circuits the search; otherwise the
candidate with the highest score wins, ties broken by earliest position in
the trace.  Returns the index of the selected entry. -/
def heuristic (entries : List Entry) (req : JsRequest) : Option Nat :=
  let cands := entries.enum.filter (fun p => isCandidate p.2 req)
  match cands.find? (fun p => isExactMatch p.2 req) with
  | some p => some p.1
  | none =>
    match cands with
    | [] => none
    | c :: rest =>
      some (rest.foldl
        (fun best p => if entryScore p.2 req > entryScore best.2 req then p else best)
        c).1

/-! ## Configuration -/

/-- Context handed to each replacement rule. -/
structure ReplContext where
  request : JsRequest
  entry : Entry

/-- The compiled configuration consumed by the request listener: ordered
lists of mapping, replacement and header-transform functions. -/
structure Config where
  mappings : List (String → Option String)
  replacements : List (String → ReplContext → String)
  responseHeaderTransforms : List (HarHeader → HarHeader)

/-! ## Outgoing response state (model of Node `http.ServerResponse` headers) -/

/-- A stored outgoing header value: Node keeps either a single string or an
array of strings. -/
inductive HValue where
  | single (s : String)
  | multi (vs : List String)
deriving DecidableEq, Repr

/-- One outgoing header slot. -/
structure RespHeader where
  name : String
  value : HValue
deriving DecidableEq, Repr

/-- The outgoing header map; keys are compared case-insensitively. -/
abbrev RespHeaders := List RespHeader

/-- `response.getHeader(n)`: case-insensitive lookup. -/
def getHeaderVal : RespHeaders → String → Option HValue
  | [], _ => none
  | h :: rest, n =>
    if lowerStr h.name = lowerStr n then some h.value else getHeaderVal rest n

/-- `response.setHeader(n, v)`: replace the existing slot with the same
case-insensitive key, or append a new slot. -/
def setHeaderVal : RespHeaders → String → HValue → RespHeaders
  | [], n, v => [⟨n, v⟩]
  | h :: rest, n, v =>
    if lowerStr h.name = lowerStr n then ⟨n, v⟩ :: rest
    else h :: setHeaderVal rest n v

/-- A fully assembled response, together with the origin tag that
`logInteraction` would report for it. -/
structure ServedResponse where
  statusCode : Option Int
  statusMessage : Option String
  headers : RespHeaders
  body : JsBuffer
  origin : String
deriving DecidableEq, Repr

/-! ## Errors

A thrown JS exception.  The replay engine contains no try/catch, so an
`Except.error` produced anywhere below propagates out of the request
handler. -/

inductive JsError where
  | typeError
deriving DecidableEq, Repr

/-! ## Response synthesizer (src/index.js lines 118-281) -/

/-- `serveError` (lines 126-153): the 404 response served when no entry (or
no readable local file) matches; origin tag `noentrymatch`. -/
def notFoundResp : ServedResponse :=
  { statusCode := some 404
  , statusMessage := some "Not found"
  , headers := [⟨"content-type", .single "text/plain; charset=UTF-8"⟩]
  , body := .str "utf8" "404 Not found"
  , origin := "noentrymatch" }

/-- `JSON.stringify` on a string value. -/
def jsonStringify (s : String) : String :=
  "\"" ++ String.join (s.toList.map (fun c =>
    if c = '"' then "\\\""
    else if c = '\\' then "\\\\"
    else if c = '\n' then "\\n"
    else String.singleton c)) ++ "\""

/-- The error text used for a capture-error response (line 141). -/
def captureErrorStr (er : EntryResponse) : String :=
  if jsStrOptTruthy er.harError then jsonStringify (er.harError.getD "")
  else "Missing status"

/-- The explanatory plain-text body of a 410 capture-error response
(lines 144-145). -/
def captureMessage (e : String) : String :=
  "HAR response error: " ++ e ++
    "\n\nThis resource might have been blocked by the client recording the HAR file. For example, by the AdBlock or Ghostery extensions."

/-- The 410 response served for an unusable matched exchange; origin tag
`clientblocked`. -/
def captureErrorResp (er : EntryResponse) : ServedResponse :=
  { statusCode := some 410
  , statusMessage := some (captureErrorStr er)
  , headers := [⟨"content-type", .single "text/plain; charset=UTF-8"⟩]
  , body := .str "utf8" (captureMessage (captureErrorStr er))
  , origin := "clientblocked" }

/-- An exchange response is unusable when it carries a truthy `_error`
capture marker or a falsy status (line 140). -/
def entryResponseBad (er : EntryResponse) : Bool :=
  jsStrOptTruthy er.harError || !(jsNumTruthy er.status)

/-- `serveError(options, request, response, entryResponse)` (lines 126-153):
`some` a served error response, `none` when the caller should serve the
entry (the JS function returns false). -/
def serveError (er : Option EntryResponse) : Option ServedResponse :=
  match er with
  | none => some notFoundResp
  | some er => if entryResponseBad er then some (captureErrorResp er) else none

/-! ### Header assembly (`serveHeaders`, lines 155-193) -/

/-- The header names dropped from the recorded set (lines 172-175),
lowercase. -/
def dropNames : List String :=
  ["content-length", "content-encoding", "cache-control", "pragma"]

/-- Per-header processing before the drop check (lines 160-170): the value of
a header whose recorded name is `content-type` is replaced by the resolved
content type, then the header-transform chain is applied in declared
order. -/
def postHeader (ct : String) (cfg : Config) (h : HarHeader) : HarHeader :=
  let v := if lowerStr h.name = "content-type" then ct else h.value
  cfg.responseHeaderTransforms.foldl (fun p t => t p) ⟨h.name, v⟩

/-- Processing of one recorded header against the outgoing header state
(lines 159-187), including the JS truthiness check `if (existing)` on the
result of `getHeader`. -/
def stepHeader (ct : String) (cfg : Config) (st : RespHeaders) (h : HarHeader) :
    RespHeaders :=
  let h' := postHeader ct cfg h
  if lowerStr h'.name ∈ dropNames then st
  else
    match getHeaderVal st h'.name with
    | none => setHeaderVal st h'.name (.single h'.value)
    | some (.single s) =>
      if s = "" then setHeaderVal st h'.name (.single h'.value)
      else setHeaderVal st h'.name (.multi [s, h'.value])
    | some (.multi l) => setHeaderVal st h'.name (.multi (l ++ [h'.value]))

/-- `serveHeaders(response, entryResponse, contentType, config)`
(lines 155-193): returns the status code it assigns and the final outgoing
header state of a fresh response. -/
def serveHeaders (er : EntryResponse) (ct : String) (cfg : Config) :
    Option Int × RespHeaders :=
  let status := if er.status = some 304 then some 200 else er.status
  let hs := er.headers.foldl (stepHeader ct cfg) []
  (status,
    setHeaderVal
      (setHeaderVal hs "cache-control" (.single "no-cache, no-store, must-revalidate"))
      "pragma" (.single "no-cache"))

/-! ### Content handling -/

/-- `TypedContent` (lines 195-204). -/
structure TypedContent where
  buffer : Option JsBuffer
  mimeType : String
deriving DecidableEq, Repr

/-- `typedContent.getBuffer()`. -/
def TypedContent.getBuffer (tc : TypedContent) : JsBuffer :=
  tc.buffer.getD (.str "utf8" "")

/-- `typedContent.getContentType()`. -/
def TypedContent.getContentType (tc : TypedContent) : String :=
  if tc.mimeType = "" then "application/octet-stream" else tc.mimeType

/-- `extractContentType(harEntry)` (lines 206-212): parse the declared MIME
type, defaulting to `application/octet-stream` when absent or empty.  The
result is `none` when the declared MIME type is present but malformed. -/
def extractContentType (e : Entry) : Option ContentType :=
  parseContentType (jsStrOr e.response.content.mimeType "application/octet-stream")

/-- The binary test applied to a non-null parsed content type. -/
def isBinaryCT (ct : ContentType) : Bool :=
  !(ct.isText || ct.isXML || ct.subtype == "json")

/-- `isBinary(ct)` (lines 258-263).  The JS condition is
`ct && ct.isText() || ct.isXML() || ct.subtype === 'json'`: `&&` binds
tighter than `||`, so when `ct` is null the guard `ct &&` only silences the
`isText` call and the evaluation of `ct.isXML()` throws a TypeError. -/
def isBinary (ct : Option ContentType) : Except JsError Bool :=
  match ct with
  | none => .error .typeError
  | some c => .ok (isBinaryCT c)

/-- `isBase64Encoded(entryResponse)` (lines 249-256).  The JS code tests
`L >= size/0.75 && L <= size/0.75 + 4` in floating point; since 0.75 is
exactly representable, the test is equivalent to the exact integer
comparisons `4*size <= 3*L && 3*L <= 4*size + 12` (the exact quotient is an
integer or at distance at least 1/3 from one, far above the double rounding
error at any realistic size).  The integer form is used here so that the
definition evaluates inside the kernel. -/
def isBase64Encoded (er : EntryResponse) : Bool :=
  match er.content.text with
  | none => false
  | some t =>
    if t = "" then false
    else
      match er.content.size with
      | none => false
      | some s =>
        decide (4 * s ≤ 3 * (t.length : Int) ∧ 3 * (t.length : Int) ≤ 4 * s + 12)

/-- The lazy decode of a recorded payload (lines 268-274): from base64 when
`isBase64Encoded` holds, as raw utf8 text otherwise. -/
def decodeContent (er : EntryResponse) : JsBuffer :=
  if isBase64Encoded er then .str "base64" (er.content.text.getD "")
  else .str "utf8" (er.content.text.getD "")

/-- Overwrite the cached decoded buffer of an entry. -/
def setContentBuffer (e : Entry) (b : JsBuffer) : Entry :=
  { e with response :=
    { e.response with content := { e.response.content with buffer := some b } } }

/-- The size/consistency check of lines 242-244: with a positive declared
size and falsy decoded content the code logs `entry.request.url`, which
throws when the entry has no request field. -/
def checkSizeMismatch (e : Entry) (content : Option JsBuffer) : Except JsError Unit :=
  match e.response.content.size with
  | some s =>
    if s > 0 && content.isNone then
      match e.request with
      | none => .error .typeError
      | some _ => .ok ()
    else .ok ()
  | none => .ok ()

/-- `manipulateContent(request, entry, replacements)` (lines 221-247).  When
the parsed content type is null, the `isBinary` call throws (see
`isBinary`); the text branch re-encodes the replaced characters with the
resolved charset, updating the charset parameter if previously unset. -/
def manipulateContent (req : JsRequest) (e : Entry)
    (repls : List (String → ReplContext → String)) : Except JsError TypedContent :=
  let er := e.response
  match extractContentType e with
  | none => .error .typeError
  | some ct0 =>
    if isBinaryCT ct0 then
      match checkSizeMismatch e er.content.buffer with
      | .error err => .error err
      | .ok _ => .ok ⟨er.content.buffer, ct0.toStr⟩
    else
      match er.content.buffer with
      | none => .error .typeError
      | some b =>
        let s0 := jsBufferToUtf8 b
        let s1 := repls.foldl (fun s r => r s ⟨req, e⟩) s0
        let cs := jsStrOr (ct0.get "charset") "utf8"
        let ct1 := ct0.set "charset" cs
        .ok ⟨some (.str cs s1), ct1.toStr⟩

/-- `serveEntry(options, request, response, entry, config)` (lines 265-281):
decode-and-cache the stored content when no buffer is cached yet, then
synthesize the response.  Returns the (possibly updated) entry and the
served response. -/
def serveEntry (req : JsRequest) (e : Entry) (cfg : Config) :
    Except JsError (Entry × ServedResponse) :=
  let e1 := if e.response.content.buffer.isSome then e
            else setContentBuffer e (decodeContent e.response)
  match manipulateContent req e1 cfg.replacements with
  | .error err => .error err
  | .ok tc =>
    let sh := serveHeaders e1.response tc.getContentType cfg
    .ok (e1,
      { statusCode := sh.1
      , statusMessage := none
      , headers := sh.2
      , body := tc.getBuffer
      , origin := "matchedentry" })

/-! ## Dispatcher (`makeRequestListener`, lines 35-93) -/

/-- Model of Node `path.resolve` for a POSIX base directory: a relative
destination is joined to the base, then `.`, `..` and empty segments are
normalized away. -/
def pathResolve (base p : String) : String :=
  let joined := if startsWithStr p "/" then p.toList else base.toList ++ '/' :: p.toList
  let segs := (splitChar '/' joined).foldl
    (fun acc s =>
      if s.isEmpty || s == ['.'] then acc
      else if s == ['.', '.'] then acc.dropLast
      else acc ++ [s]) []
  String.mk ('/' :: List.intercalate ['/'] segs)

/-- The mapping loop of lines 47-53: the first mapping whose result is truthy
wins and its result is resolved against the base directory. -/
def findLocalPath : List (String → Option String) → String → String → Option String
  | [], _, _ => none
  | m :: rest, url, base =>
    match m url with
    | some p => if p = "" then findLocalPath rest url base else some (pathResolve base p)
    | none => findLocalPath rest url base

/-- Model of the `mime` npm dependency: extension lookup, used only to build
shim entries for locally mapped files. -/
def mimeGetType (p : String) : Option String :=
  if endsWithStr p ".js" then some "application/javascript"
  else if endsWithStr p ".html" then some "text/html"
  else if endsWithStr p ".css" then some "text/css"
  else if endsWithStr p ".json" then some "application/json"
  else none

/-- The shim entry built when a local mapping matches but no recorded entry
exists (lines 58-72).  The JS shim's Content-Type header value is null when
the extension is unknown, but that value is unconditionally replaced in
`serveHeaders` before use, so the empty string stands in for null here. -/
def shimEntry (localPath : String) : Entry :=
  let mt := mimeGetType localPath
  { request := none
  , response :=
    { status := some 200
    , harError := none
    , headers := [⟨"Content-Type", mt.getD ""⟩]
    , content := { mimeType := mt, size := none, text := none, buffer := none } } }

/-- The observable outcome of one successfully handled request: the served
response, the updated entry list (recording any in-place buffer caching),
the path handed to the file reader if one was, and the `console.error`
log lines. -/
structure HandlerOk where
  response : ServedResponse
  entries : List Entry
  readPath : Option String
  errLog : List String
deriving DecidableEq, Repr

/-- The request listener returned by `makeRequestListener(entries, options)`
(lines 42-92), handling one request: consult the mappings first; on a
mapped path read the file (serving the shared 404 on a read error, and
otherwise serving the recorded entry — or a shim — with the file's bytes
written into its content buffer); without a mapping, serve a matched
entry unless `serveError` intercepts it.  File reading is modelled by the
`fsRead` collaborator (`options.fs`). -/
def handleRequest (entries : List Entry) (cfg : Config) (base : String)
    (fsRead : String → Except Unit JsBuffer) (req : JsRequest) :
    Except JsError HandlerOk :=
  let mi := heuristic entries req
  let recorded : Option (Nat × Entry) :=
    match mi with
    | some i => (entries[i]?).map (fun e => (i, e))
    | none => none
  match findLocalPath cfg.mappings req.url base with
  | some p =>
    let e0 := (recorded.map (fun r => r.2)).getD (shimEntry p)
    match fsRead p with
    | .error _ =>
      .ok { response := notFoundResp
          , entries := entries
          , readPath := some p
          , errLog := ["Error: Could not read " ++ p ++ " requested from " ++ req.url] }
    | .ok fileBuf =>
      match serveEntry req (setContentBuffer e0 fileBuf) cfg with
      | .error err => .error err
      | .ok r =>
        .ok { response := r.2
            , entries :=
                match recorded with
                | some ie => entries.set ie.1 r.1
                | none => entries
            , readPath := some p
            , errLog := [] }
  | none =>
    match recorded with
    | none =>
      .ok { response := notFoundResp, entries := entries
          , readPath := none, errLog := [] }
    | some ie =>
      match serveError (some ie.2.response) with
      | some r =>
        .ok { response := r, entries := entries, readPath := none, errLog := [] }
      | none =>
        match serveEntry req ie.2 cfg with
        | .error err => .error err
        | .ok r =>
          .ok { response := r.2
              , entries := entries.set ie.1 r.1
              , readPath := none
              , errLog := [] }

/-- Substring test used to state that a response does or does not mention a
path. -/
def containsSub (hay pin : String) : Bool :=
  let h := hay.toList
  let p := pin.toList
  (List.range (h.length + 1)).any (fun i => ((h.drop i).take p.length) == p)

/-! ## Specification views used in theorem statements -/

/-- The values, in recorded order, of the recorded headers whose name after
the content-type rewrite and the transform chain is (case-insensitively)
`k`. -/
def valuesAtKey (ct : String) (cfg : Config) (k : String) (hs : List HarHeader) :
    List String :=
  hs.filterMap (fun h =>
    if lowerStr (postHeader ct cfg h).name = k then some (postHeader ct cfg h).value
    else none)

/-- One accumulation step of `serveHeaders` at a fixed key: how the stored
value evolves when one more recorded value arrives (lines 177-186,
including the JS truthiness of `if (existing)`). -/
def jsAccStep (acc : Option HValue) (v : String) : HValue :=
  match acc with
  | none => .single v
  | some (.single s) => if s = "" then .single v else .multi [s, v]
  | some (.multi l) => .multi (l ++ [v])

/-- Accumulation of a list of recorded values at a fixed key. -/
def jsAccum (acc : Option HValue) (vs : List String) : Option HValue :=
  vs.foldl (fun a v => some (jsAccStep a v)) acc

/-- What handling one request may do to one recorded exchange: every stored
field is unchanged, and the cached buffer either is untouched, or holds the
lazily decoded bytes of the stored text, or holds bytes delivered by the
file reader (the local-mapping overwrite). -/
def contentPreserved (fsRead : String → Except Unit JsBuffer) (e eAfter : Entry) :
    Prop :=
  eAfter.request = e.request ∧
  eAfter.response.status = e.response.status ∧
  eAfter.response.harError = e.response.harError ∧
  eAfter.response.headers = e.response.headers ∧
  eAfter.response.content.text = e.response.content.text ∧
  eAfter.response.content.size = e.response.content.size ∧
  eAfter.response.content.mimeType = e.response.content.mimeType ∧
  (eAfter.response.content.buffer = e.response.content.buffer ∨
   eAfter.response.content.buffer = some (decodeContent e.response) ∨
   ∃ p b, fsRead p = Except.ok b ∧ eAfter.response.content.buffer = some b)

/-! ## Lemmas about the outgoing header state -/

theorem getHeaderVal_eq_of_lower (st : RespHeaders) {n1 n2 : String}
    (h : lowerStr n1 = lowerStr n2) : getHeaderVal st n1 = getHeaderVal st n2 := by
  induction st with
  | nil => rfl
  | cons hd tl ih => simp [getHeaderVal, h, ih]

theorem getHeaderVal_setHeaderVal (hs : RespHeaders) (n : String) (v : HValue)
    (k : String) :
    getHeaderVal (setHeaderVal hs n v) k =
      if lowerStr n = lowerStr k then some v else getHeaderVal hs k := by
  induction hs with
  | nil => simp [getHeaderVal, setHeaderVal]
  | cons h rest ih =>
    by_cases hn : lowerStr h.name = lowerStr n
    · by_cases hk : lowerStr n = lowerStr k
      · simp [setHeaderVal, getHeaderVal, hn, hk]
      · have hk2 : ¬ lowerStr h.name = lowerStr k := fun hh => hk (hn ▸ hh)
        simp [setHeaderVal, getHeaderVal, hn, hk, hk2]
    · by_cases hk : lowerStr n = lowerStr k
      · have hk2 : ¬ lowerStr h.name = lowerStr k := fun hh => hn (hk ▸ hh)
        simp [setHeaderVal, getHeaderVal, hn, hk, hk2, ih]
      · have hk3 : ¬ lowerStr k = lowerStr n := fun h2 => hk h2.symm
        by_cases hh : lowerStr h.name = lowerStr k
        · simp [setHeaderVal, getHeaderVal, hn, hk, hh, hk3]
        · simp [setHeaderVal, getHeaderVal, hn, hk, hh, ih]

theorem stepHeader_dropped (ct : String) (cfg : Config) (st : RespHeaders)
    (h : HarHeader) (hd : lowerStr (postHeader ct cfg h).name ∈ dropNames) :
    stepHeader ct cfg st h = st := by
  simp [stepHeader, hd]

theorem getHeaderVal_stepHeader_of_key (ct : String) (cfg : Config) (st : RespHeaders)
    (h : HarHeader) (k : String) (hk : lowerStr k = k)
    (hd : ¬ lowerStr (postHeader ct cfg h).name ∈ dropNames)
    (he : lowerStr (postHeader ct cfg h).name = k) :
    getHeaderVal (stepHeader ct cfg st h) k =
      some (jsAccStep (getHeaderVal st k) (postHeader ct cfg h).value) := by
  have hlk : lowerStr (postHeader ct cfg h).name = lowerStr k := he.trans hk.symm
  have hg : getHeaderVal st (postHeader ct cfg h).name = getHeaderVal st k :=
    getHeaderVal_eq_of_lower st hlk
  unfold stepHeader
  rw [if_neg hd, hg]
  rcases hgv : getHeaderVal st k with _ | v
  · simp [getHeaderVal_setHeaderVal, hlk, jsAccStep]
  · cases v with
    | single s =>
      by_cases hs : s = "" <;> simp [hs, getHeaderVal_setHeaderVal, hlk, jsAccStep]
    | multi l => simp [getHeaderVal_setHeaderVal, hlk, jsAccStep]

theorem getHeaderVal_stepHeader_of_ne (ct : String) (cfg : Config) (st : RespHeaders)
    (h : HarHeader) (k : String) (hk : lowerStr k = k)
    (he : ¬ lowerStr (postHeader ct cfg h).name = k) :
    getHeaderVal (stepHeader ct cfg st h) k = getHeaderVal st k := by
  have hlk : ¬ lowerStr (postHeader ct cfg h).name = lowerStr k := by
    rw [hk]; exact he
  unfold stepHeader
  by_cases hd : lowerStr (postHeader ct cfg h).name ∈ dropNames
  · rw [if_pos hd]
  · rw [if_neg hd]
    rcases hgv : getHeaderVal st (postHeader ct cfg h).name with _ | v
    · simp [getHeaderVal_setHeaderVal, hlk]
    · cases v with
      | single s =>
        by_cases hs : s = "" <;> simp [hs, getHeaderVal_setHeaderVal, hlk]
      | multi l => simp [getHeaderVal_setHeaderVal, hlk]

theorem foldl_stepHeader_get (ct : String) (cfg : Config) (k : String)
    (hk : lowerStr k = k) (hdrop : ¬ k ∈ dropNames) :
    ∀ (hs : List HarHeader) (st : RespHeaders),
      getHeaderVal (hs.foldl (stepHeader ct cfg) st) k =
        jsAccum (getHeaderVal st k) (valuesAtKey ct cfg k hs) := by
  intro hs
  induction hs with
  | nil => intro st; rfl
  | cons h t ih =>
    intro st
    by_cases he : lowerStr (postHeader ct cfg h).name = k
    · have hd : ¬ lowerStr (postHeader ct cfg h).name ∈ dropNames := he ▸ hdrop
      have hstep := getHeaderVal_stepHeader_of_key ct cfg st h k hk hd he
      simp only [List.foldl_cons, ih, hstep, valuesAtKey, List.filterMap_cons, he,
        if_pos rfl]
      rfl
    · have hstep := getHeaderVal_stepHeader_of_ne ct cfg st h k hk he
      simp only [List.foldl_cons, ih, hstep, valuesAtKey, List.filterMap_cons, if_neg he]

theorem serveHeaders_getHeaderVal (er : EntryResponse) (ct : String) (cfg : Config)
    (k : String) (hk : lowerStr k = k) (hdrop : ¬ k ∈ dropNames) :
    getHeaderVal (serveHeaders er ct cfg).2 k =
      jsAccum none (valuesAtKey ct cfg k er.headers) := by
  have hcc : ¬ k = "cache-control" := by
    intro h; subst h; simp [dropNames] at hdrop
  have hpg : ¬ k = "pragma" := by
    intro h; subst h; simp [dropNames] at hdrop
  have l1 : lowerStr "pragma" = "pragma" := by decide
  have l2 : lowerStr "cache-control" = "cache-control" := by decide
  unfold serveHeaders
  rw [getHeaderVal_setHeaderVal, if_neg (by rw [l1, hk]; exact fun h => hpg h.symm),
    getHeaderVal_setHeaderVal, if_neg (by rw [l2, hk]; exact fun h => hcc h.symm)]
  exact foldl_stepHeader_get ct cfg k hk hdrop er.headers []

theorem jsAccum_multi (vs : List String) :
    ∀ l : List String, jsAccum (some (.multi l)) vs = some (.multi (l ++ vs)) := by
  induction vs with
  | nil => intro l; simp [jsAccum]
  | cons w rest ih =>
    intro l
    show jsAccum (some (jsAccStep (some (.multi l)) w)) rest = _
    rw [show jsAccStep (some (.multi l)) w = .multi (l ++ [w]) from rfl, ih]
    simp

theorem jsAccum_single_nonempty (v : String) (hv : ¬ v = "") (rest : List String) :
    jsAccum (some (.single v)) rest =
      some (if rest.isEmpty then HValue.single v else HValue.multi (v :: rest)) := by
  cases rest with
  | nil => rfl
  | cons w rest2 =>
    show jsAccum (some (jsAccStep (some (.single v)) w)) rest2 = _
    rw [show jsAccStep (some (.single v)) w = .multi [v, w] by simp [jsAccStep, hv],
      jsAccum_multi]
    simp

theorem foldl_stepHeader_filter (ct : String) (cfg : Config) :
    ∀ (hs : List HarHeader) (st : RespHeaders),
      hs.foldl (stepHeader ct cfg) st =
        (hs.filter
          (fun h => !(decide (lowerStr (postHeader ct cfg h).name ∈ dropNames)))).foldl
          (stepHeader ct cfg) st := by
  intro hs
  induction hs with
  | nil => intro st; rfl
  | cons h t ih =>
    intro st
    by_cases hd : lowerStr (postHeader ct cfg h).name ∈ dropNames
    · rw [List.foldl_cons, stepHeader_dropped ct cfg st h hd, List.filter_cons]
      simp only [hd]
      simpa using ih st
    · rw [List.foldl_cons, List.filter_cons]
      simp only [hd]
      simpa using ih (stepHeader ct cfg st h)

/-- The recorded headers that survive the drop check: those whose name after
the content-type rewrite and the transform chain is not in `dropNames`. -/
def keptHeaders (ct : String) (cfg : Config) (hs : List HarHeader) : List HarHeader :=
  hs.filter (fun h => !(decide (lowerStr (postHeader ct cfg h).name ∈ dropNames)))

/-! ## Concrete fixtures used by the claim theorems -/

/-- A configuration with no mappings, replacements or transforms. -/
def emptyConfig : Config :=
  { mappings := [], replacements := [], responseHeaderTransforms := [] }

/-- A stored content payload with the given fields. -/
def mkContent (mt : Option String) (sz : Option Int) (tx : Option String) : Content :=
  { mimeType := mt, size := sz, text := tx, buffer := none }

/-- Header transform renaming a recorded `Content-Length` header. -/
def c7renameTr : HarHeader → HarHeader := fun h =>
  if h.name = "Content-Length" then { name := "X-Recorded-Length", value := h.value }
  else h

/-- Configuration whose only rule is the `Content-Length` rename. -/
def c7cfg : Config :=
  { mappings := [], replacements := [], responseHeaderTransforms := [c7renameTr] }

/-- A recorded response carrying a `Content-Length` header. -/
def c7er : EntryResponse :=
  { status := some 200, harError := none
  , headers := [⟨"Content-Length", "5"⟩]
  , content := mkContent (some "text/html") (some 5) (some "hello") }

/-- The same recorded response with the `Content-Length` header removed. -/
def c7erNo : EntryResponse := { c7er with headers := [] }

/-- A recorded response with duplicate `Set-Cookie` headers, the first value
empty. -/
def c8er : EntryResponse :=
  { status := some 200, harError := none
  , headers := [⟨"Set-Cookie", ""⟩, ⟨"Set-Cookie", "b"⟩]
  , content := mkContent (some "text/html") (some 5) (some "hello") }

/-- A recorded response with duplicate nonempty `Set-Cookie` headers. -/
def c8erW : EntryResponse :=
  { status := some 200, harError := none
  , headers := [⟨"Set-Cookie", "a"⟩, ⟨"set-cookie", "b"⟩]
  , content := mkContent (some "text/html") (some 5) (some "hello") }

/-- Header transform renaming a recorded `X-Type` header to `Content-Type`. -/
def c10renameTr : HarHeader → HarHeader := fun h =>
  if h.name = "X-Type" then { name := "Content-Type", value := h.value }
  else h

/-- Configuration whose only rule is the `X-Type` rename. -/
def c10cfg : Config :=
  { mappings := [], replacements := [], responseHeaderTransforms := [c10renameTr] }

/-- A recorded response with no `content-type` header. -/
def c10er : EntryResponse :=
  { status := some 200, harError := none
  , headers := [⟨"X-Type", "foo"⟩]
  , content := mkContent (some "application/octet-stream") (some 3) (some "abc") }

/-- A recorded response with no `content-type` header and only an `X-Foo`
header. -/
def c10erW : EntryResponse :=
  { status := some 200, harError := none
  , headers := [⟨"X-Foo", "1"⟩]
  , content := mkContent (some "application/octet-stream") (some 3) (some "abc") }

/-! ## Claim C7 -/

/-- C7 (corrected): header assembly drops every header whose name AFTER the
content-type rewrite and the transform chain is (case-insensitively)
`content-length`, `content-encoding`, `cache-control` or `pragma` — the
assembled output equals the output for the recorded set with those headers
removed — and the final headers always carry
`cache-control: no-cache, no-store, must-revalidate` and
`pragma: no-cache`. -/
theorem c7_drop_and_cache_headers (er : EntryResponse) (ct : String) (cfg : Config) :
    serveHeaders er ct cfg =
      serveHeaders { er with headers := keptHeaders ct cfg er.headers } ct cfg
    ∧ getHeaderVal (serveHeaders er ct cfg).2 "cache-control" =
        some (.single "no-cache, no-store, must-revalidate")
    ∧ getHeaderVal (serveHeaders er ct cfg).2 "pragma" = some (.single "no-cache") := by
  refine ⟨?_, ?_, ?_⟩
  · unfold serveHeaders keptHeaders
    rw [← foldl_stepHeader_filter]
  · unfold serveHeaders
    rw [getHeaderVal_setHeaderVal,
      if_neg (by decide : ¬ lowerStr "pragma" = lowerStr "cache-control"),
      getHeaderVal_setHeaderVal,
      if_pos (rfl : lowerStr "cache-control" = lowerStr "cache-control")]
  · unfold serveHeaders
    rw [getHeaderVal_setHeaderVal,
      if_pos (rfl : lowerStr "pragma" = lowerStr "pragma")]

/-- C7 counterexample: with a transform that renames `Content-Length` to
`X-Recorded-Length`, the recorded header named `content-length` is not
dropped — assembly with it differs from assembly without it, and its value
survives in the output under the transformed name. -/
theorem c7_counterexample :
    ¬ serveHeaders c7er "text/html" c7cfg = serveHeaders c7erNo "text/html" c7cfg ∧
    getHeaderVal (serveHeaders c7er "text/html" c7cfg).2 "x-recorded-length" =
      some (.single "5") := by
  decide

/-! ## Claim C8 -/

/-- C8 (corrected): duplicate (post-transform) header names accumulate into
one multi-value header in recorded order, provided the first recorded value
is nonempty; with values `v :: rest` at a key outside the drop list, the
assembled header holds exactly those values. -/
theorem c8_duplicate_headers_accumulate (er : EntryResponse) (ct : String)
    (cfg : Config) (k v : String) (rest : List String)
    (hk : lowerStr k = k) (hdrop : ¬ k ∈ dropNames)
    (hvals : valuesAtKey ct cfg k er.headers = v :: rest) (hv : ¬ v = "") :
    getHeaderVal (serveHeaders er ct cfg).2 k =
      some (if rest.isEmpty then HValue.single v else HValue.multi (v :: rest)) := by
  rw [serveHeaders_getHeaderVal er ct cfg k hk hdrop, hvals]
  show jsAccum (some (jsAccStep none v)) rest = _
  rw [show jsAccStep none v = .single v from rfl]
  exact jsAccum_single_nonempty v hv rest

/-- C8 witness: two recorded `Set-Cookie` headers with nonempty values `a`
and `b` are served as one multi-value header `[a, b]`. -/
theorem c8_duplicate_headers_accumulate_witness :
    getHeaderVal (serveHeaders c8erW "text/html" emptyConfig).2 "set-cookie" =
      some (HValue.multi ["a", "b"]) :=
  c8_duplicate_headers_accumulate c8erW "text/html" emptyConfig "set-cookie" "a" ["b"]
    (by decide) (by decide) (by decide) (by decide)

/-- C8 counterexample: when the first recorded `Set-Cookie` value is the
empty string, the later value overwrites it (the JS `if (existing)` check
treats the stored empty string as absent), instead of accumulating to
`["", "b"]` as the claim requires. -/
theorem c8_counterexample :
    getHeaderVal (serveHeaders c8er "text/html" emptyConfig).2 "set-cookie" =
      some (.single "b") ∧
    ¬ getHeaderVal (serveHeaders c8er "text/html" emptyConfig).2 "set-cookie" =
      some (.multi ["", "b"]) := by
  decide

/-! ## Claim C10 -/

/-- C10 (corrected): when no recorded header's name, after the content-type
rewrite and the transform chain, is (case-insensitively) `content-type`,
the assembled outgoing headers contain no `content-type` header: the
rewrite applies only to an already-present recorded `content-type` header
and never adds one. -/
theorem c10_no_content_type_added (er : EntryResponse) (ct : String) (cfg : Config)
    (hyp : ∀ h ∈ er.headers, ¬ lowerStr (postHeader ct cfg h).name = "content-type") :
    getHeaderVal (serveHeaders er ct cfg).2 "content-type" = none := by
  rw [serveHeaders_getHeaderVal er ct cfg "content-type" (by decide) (by decide)]
  have hv : valuesAtKey ct cfg "content-type" er.headers = [] := by
    rw [valuesAtKey, List.filterMap_eq_nil_iff]
    intro h hmem
    rw [if_neg (hyp h hmem)]
  rw [hv]
  rfl

/-- C10 witness: an exchange recorded with only an `X-Foo` header is served
with no `content-type` header. -/
theorem c10_no_content_type_added_witness :
    getHeaderVal (serveHeaders c10erW "application/octet-stream" emptyConfig).2
      "content-type" = none :=
  c10_no_content_type_added c10erW "application/octet-stream" emptyConfig (by decide)

/-- C10 counterexample: the recorded headers contain no `content-type`
header, yet with a transform renaming `X-Type` to `Content-Type` the
assembled headers do contain one (carrying the recorded value, not the
resolved type). -/
theorem c10_counterexample :
    c10er.headers.all (fun h => decide (¬ lowerStr h.name = "content-type")) = true ∧
    getHeaderVal (serveHeaders c10er "application/octet-stream" c10cfg).2
      "content-type" = some (.single "foo") := by
  decide

/-! ## Claim C3 -/

/-- An entry response with the given declared size and stored text. -/
def c3erOf (sz : Int) (tx : String) : EntryResponse :=
  { status := some 200, harError := none, headers := []
  , content := mkContent (some "text/plain") (some sz) (some tx) }

/-- C3 (corrected): for an exchange with declared content size `S` and a
present, NONEMPTY stored text of length `L`, the classification as base64
holds iff `S/0.75 ≤ L ≤ S/0.75 + 4`, and the lazy decode decodes from
base64 exactly in that case; absent or empty stored text is never
classified as base64 even when the bounds hold. -/
theorem c3_base64_classification (er : EntryResponse) (s : Int) (t : String)
    (hs : er.content.size = some s) (ht : er.content.text = some t)
    (hne : ¬ t = "") :
    (isBase64Encoded er = true ↔
      ((s : ℚ) / (0.75 : ℚ) ≤ (t.length : ℚ) ∧
        (t.length : ℚ) ≤ (s : ℚ) / (0.75 : ℚ) + 4)) ∧
    decodeContent er =
      (if isBase64Encoded er then JsBuffer.str "base64" t
       else JsBuffer.str "utf8" t) := by
  constructor
  · unfold isBase64Encoded
    rw [ht, hs]
    simp only [hne, if_false, decide_eq_true_eq]
    have e1 : (s : ℚ) / (0.75 : ℚ) = (4 * (s : ℚ)) / 3 := by ring
    have e2 : (s : ℚ) / (0.75 : ℚ) + 4 = (4 * (s : ℚ) + 12) / 3 := by rw [e1]; ring
    rw [e2, e1, div_le_iff₀ (by norm_num : (0 : ℚ) < 3),
      le_div_iff₀ (by norm_num : (0 : ℚ) < 3)]
    constructor
    · intro hcl
      have h1 : (4 : ℚ) * (s : ℚ) ≤ 3 * (t.length : ℚ) := by exact_mod_cast hcl.1
      have h2 : (3 : ℚ) * (t.length : ℚ) ≤ 4 * (s : ℚ) + 12 := by exact_mod_cast hcl.2
      constructor <;> linarith
    · intro hcl
      constructor
      · exact_mod_cast (by linarith [hcl.1] : (4 : ℚ) * (s : ℚ) ≤ 3 * (t.length : ℚ))
      · exact_mod_cast
          (by linarith [hcl.2] : (3 : ℚ) * (t.length : ℚ) ≤ 4 * (s : ℚ) + 12)
  · unfold decodeContent
    rw [ht]
    simp

/-- C3 witness: size 3 with stored text `AAAA` (length 4) lies inside the
bounds and is classified as base64. -/
theorem c3_base64_classification_witness :
    (isBase64Encoded (c3erOf 3 "AAAA") = true ↔
      (((3 : Int) : ℚ) / (0.75 : ℚ) ≤ (("AAAA" : String).length : ℚ) ∧
        (("AAAA" : String).length : ℚ) ≤ ((3 : Int) : ℚ) / (0.75 : ℚ) + 4)) ∧
    decodeContent (c3erOf 3 "AAAA") =
      (if isBase64Encoded (c3erOf 3 "AAAA") then JsBuffer.str "base64" "AAAA"
       else JsBuffer.str "utf8" "AAAA") :=
  c3_base64_classification (c3erOf 3 "AAAA") 3 "AAAA" rfl rfl (by decide)

/-- C3 counterexample: declared size 0 with stored text `""` (length 0)
satisfies the claimed bounds `0/0.75 ≤ 0 ≤ 0/0.75 + 4`, yet the code does
not classify it as base64 — the classification is not an `iff` over all
sizes and lengths. -/
theorem c3_counterexample :
    isBase64Encoded (c3erOf 0 "") = false ∧
    (((0 : Int) : ℚ) / (0.75 : ℚ) ≤ (("" : String).length : ℚ) ∧
      (("" : String).length : ℚ) ≤ ((0 : Int) : ℚ) / (0.75 : ℚ) + 4) :=
  ⟨by decide, by norm_num⟩

/-! ## Claim C1 -/

/-- The live request used for the C1 failing input. -/
def c1req : JsRequest := { method := "GET", url := "http://h/a" }

/-- The C1 failing input: a recorded exchange whose declared MIME type is
the malformed string `garbage` (no slash), which `content-type-parser`
cannot parse. -/
def c1entry : Entry :=
  { request := some { method := "GET", url := "http://h/a" }
  , response :=
    { status := some 200, harError := none, headers := []
    , content := mkContent (some "garbage") (some 1) (some "x") } }

/-- C1 (code bug): per-request handling is NOT total.  For a matched
exchange with a malformed declared MIME type the parsed content type is
null, and the `ct && ct.isText() || ct.isXML() || ...` condition in
`isBinary` — where `&&` binds tighter than `||` — evaluates `ct.isXML()` on
the null value and throws a TypeError; the handler contains no catch, so
the error propagates out of the engine instead of being resolved into an
HTTP response. -/
theorem c1_malformed_mime_type_uncaught :
    extractContentType c1entry = none ∧
    isBinary (extractContentType c1entry) = .error .typeError ∧
    handleRequest [c1entry] emptyConfig "/" (fun _ => .error ()) c1req =
      .error .typeError :=
  ⟨by decide, by decide, by decide⟩

/-! ## Claim C6 -/

/-- The live request used for the C6 witness. -/
def c6req : JsRequest := { method := "GET", url := "http://h/nothing" }

/-- C6 (confirmed): when no recorded exchange matches and no configured
mapping applies, the dispatcher responds 404 with a plain-text body and
origin `noentrymatch`. -/
theorem c6_no_match_404 (entries : List Entry) (cfg : Config) (base : String)
    (fsRead : String → Except Unit JsBuffer) (req : JsRequest)
    (hmap : findLocalPath cfg.mappings req.url base = none)
    (hmatch : heuristic entries req = none) :
    handleRequest entries cfg base fsRead req =
      .ok { response := notFoundResp, entries := entries
          , readPath := none, errLog := [] } ∧
    notFoundResp.statusCode = some 404 ∧
    notFoundResp.origin = "noentrymatch" ∧
    getHeaderVal notFoundResp.headers "content-type" =
      some (.single "text/plain; charset=UTF-8") ∧
    notFoundResp.body = .str "utf8" "404 Not found" := by
  refine ⟨?_, rfl, rfl, by decide, rfl⟩
  simp [handleRequest, hmap, hmatch]

/-- C6 witness: an empty trace and an empty configuration yield the 404. -/
theorem c6_no_match_404_witness :
    handleRequest [] emptyConfig "/" (fun _ => .error ()) c6req =
      .ok { response := notFoundResp, entries := []
          , readPath := none, errLog := [] } ∧
    notFoundResp.statusCode = some 404 ∧
    notFoundResp.origin = "noentrymatch" ∧
    getHeaderVal notFoundResp.headers "content-type" =
      some (.single "text/plain; charset=UTF-8") ∧
    notFoundResp.body = .str "utf8" "404 Not found" :=
  c6_no_match_404 [] emptyConfig "/" (fun _ => .error ()) c6req rfl rfl

/-! ## Claim C5 -/

/-- The live request used for the C5 witness. -/
def c5req : JsRequest := { method := "GET", url := "http://h/blocked" }

/-- A recorded exchange carrying a Chrome capture-error marker. -/
def c5entry : Entry :=
  { request := some { method := "GET", url := "http://h/blocked" }
  , response :=
    { status := some 200, harError := some "net::ERR_BLOCKED_BY_CLIENT"
    , headers := []
    , content := mkContent (some "text/html") (some 5) (some "oops!") } }

/-- C5 (confirmed): with no applicable local mapping, a matched exchange
that carries a truthy capture-error marker or lacks a (truthy) status code
is served as a 410 whose body is the fixed explanatory plain-text message,
with origin `clientblocked`; the response is independent of the exchange's
recorded content, so the recorded body never reaches the client. -/
theorem c5_capture_error_410 (entries : List Entry) (cfg : Config) (base : String)
    (fsRead : String → Except Unit JsBuffer) (req : JsRequest) (i : Nat) (e : Entry)
    (hmap : findLocalPath cfg.mappings req.url base = none)
    (hmatch : heuristic entries req = some i)
    (hget : entries[i]? = some e)
    (hbad : entryResponseBad e.response = true) :
    handleRequest entries cfg base fsRead req =
      .ok { response := captureErrorResp e.response, entries := entries
          , readPath := none, errLog := [] } ∧
    (captureErrorResp e.response).statusCode = some 410 ∧
    (captureErrorResp e.response).origin = "clientblocked" ∧
    (captureErrorResp e.response).body =
      .str "utf8" (captureMessage (captureErrorStr e.response)) ∧
    (∀ c : Content, captureErrorResp { e.response with content := c } =
      captureErrorResp e.response) := by
  refine ⟨?_, rfl, rfl, rfl, fun c => rfl⟩
  simp [handleRequest, hmap, hmatch, hget, serveError, hbad]

/-- C5 witness: a blocked resource (`net::ERR_BLOCKED_BY_CLIENT` marker) is
served as the fixed 410 response. -/
theorem c5_capture_error_410_witness :
    handleRequest [c5entry] emptyConfig "/" (fun _ => .error ()) c5req =
      .ok { response := captureErrorResp c5entry.response, entries := [c5entry]
          , readPath := none, errLog := [] } ∧
    (captureErrorResp c5entry.response).statusCode = some 410 ∧
    (captureErrorResp c5entry.response).origin = "clientblocked" ∧
    (captureErrorResp c5entry.response).body =
      .str "utf8" (captureMessage (captureErrorStr c5entry.response)) ∧
    (∀ c : Content, captureErrorResp { c5entry.response with content := c } =
      captureErrorResp c5entry.response) :=
  c5_capture_error_410 [c5entry] emptyConfig "/" (fun _ => .error ()) c5req 0 c5entry
    rfl (by decide) rfl (by decide)

/-! ## Claim C4 -/

theorem containsSub_of_parts (hay p : String) (l r : List Char)
    (h : hay.toList = l ++ p.toList ++ r) : containsSub hay p = true := by
  unfold containsSub
  rw [List.any_eq_true]
  refine ⟨l.length, ?_, ?_⟩
  · rw [List.mem_range, h]
    simp only [List.length_append]
    omega
  · rw [h, List.append_assoc, List.drop_left, List.take_left]
    simp

/-- The mapping, reader and request used for the C4 counterexample and the
C9 witness. -/
def c4map : String → Option String := fun _ => some "./dir/name.js"

/-- Configuration whose only rule is `c4map`. -/
def c4cfg : Config :=
  { mappings := [c4map], replacements := [], responseHeaderTransforms := [] }

/-- A file reader that fails on every path. -/
def c4fs : String → Except Unit JsBuffer := fun _ => .error ()

/-- The live request used for the C4 counterexample. -/
def c4req : JsRequest := { method := "GET", url := "http://foo.bar/" }

/-- C4 (corrected): when the mapping selects a local path and the file reader
fails on it, the dispatcher responds 404 with the fixed plain-text body
`404 Not found` — the response does not carry the path — while the
attempted path is written to the error log. -/
theorem c4_local_read_error_404 (entries : List Entry) (cfg : Config)
    (base : String) (fsRead : String → Except Unit JsBuffer) (req : JsRequest)
    (p : String)
    (hmap : findLocalPath cfg.mappings req.url base = some p)
    (hread : fsRead p = .error ()) :
    handleRequest entries cfg base fsRead req =
      .ok { response := notFoundResp, entries := entries, readPath := some p
          , errLog := ["Error: Could not read " ++ p ++ " requested from " ++ req.url] } ∧
    notFoundResp.statusCode = some 404 ∧
    notFoundResp.body = .str "utf8" "404 Not found" ∧
    containsSub ("Error: Could not read " ++ p ++ " requested from " ++ req.url) p
      = true := by
  refine ⟨?_, rfl, rfl, ?_⟩
  · simp [handleRequest, hmap, hread]
  · refine containsSub_of_parts _ _ "Error: Could not read ".toList
      (" requested from " ++ req.url).toList ?_
    simp [String.toList, String.data_append]

/-- C4 witness: the mapped path `/root/dir/name.js` fails to read; the 404
is served and the path appears in the error log. -/
theorem c4_local_read_error_404_witness :
    handleRequest [] c4cfg "/root" c4fs c4req =
      .ok { response := notFoundResp, entries := [], readPath := some "/root/dir/name.js"
          , errLog := ["Error: Could not read " ++ "/root/dir/name.js" ++
              " requested from " ++ c4req.url] } ∧
    notFoundResp.statusCode = some 404 ∧
    notFoundResp.body = .str "utf8" "404 Not found" ∧
    containsSub ("Error: Could not read " ++ "/root/dir/name.js" ++
      " requested from " ++ c4req.url) "/root/dir/name.js" = true :=
  c4_local_read_error_404 [] c4cfg "/root" c4fs c4req "/root/dir/name.js"
    (by decide) rfl

/-- C4 counterexample: on a failed local read the served response is the
fixed `404 Not found` — neither its body, nor its status message, nor any
header value mentions the attempted path `/root/dir/name.js`, so the
response does not reference the attempted file path. -/
theorem c4_counterexample :
    (handleRequest [] c4cfg "/root" c4fs c4req).toOption.map (fun r => r.response) =
      some notFoundResp ∧
    containsSub "404 Not found" "/root/dir/name.js" = false ∧
    containsSub "Not found" "/root/dir/name.js" = false ∧
    notFoundResp.headers.all
      (fun h => !containsSub h.name "/root/dir/name.js" &&
        !(match h.value with
          | .single v => containsSub v "/root/dir/name.js"
          | .multi vs => vs.any (fun v => containsSub v "/root/dir/name.js"))) = true := by
  decide

/-! ## Claim C9 -/

theorem findLocalPath_append (url base : String) :
    ∀ (pre rest : List (String → Option String)),
      (∀ m2 ∈ pre, jsStrOptTruthy (m2 url) = false) →
      findLocalPath (pre ++ rest) url base = findLocalPath rest url base := by
  intro pre
  induction pre with
  | nil => intro rest _; rfl
  | cons m2 t ih =>
    intro rest hpre
    have h2 := hpre m2 (List.mem_cons_self m2 t)
    have htail : ∀ mm ∈ t, jsStrOptTruthy (mm url) = false :=
      fun mm hmm => hpre mm (List.mem_cons_of_mem _ hmm)
    rcases hm2 : m2 url with _ | v
    · show findLocalPath (m2 :: (t ++ rest)) url base = _
      rw [findLocalPath, hm2]
      exact ih rest htail
    · have hv : v = "" := by
        rw [hm2] at h2
        simpa [jsStrOptTruthy, jsStrTruthy] using h2
      show findLocalPath (m2 :: (t ++ rest)) url base = _
      rw [findLocalPath, hm2]
      simp only [hv, if_pos]
      exact ih rest htail

/-- Mapping fixture returning no match. -/
def c9m1 : String → Option String := fun _ => none

/-- Mapping fixture returning the falsy empty destination. -/
def c9m2 : String → Option String := fun _ => some ""

/-- Configuration declaring `c9m1`, `c9m2` and then `c4map`, in that order. -/
def c9cfg : Config :=
  { mappings := [c9m1, c9m2, c4map], replacements := [], responseHeaderTransforms := [] }

/-- C9 (confirmed): mappings are evaluated in declared order and the first
rule returning a truthy destination wins; the winning destination is
resolved against the caller-supplied base directory, the file reader is
consulted only at that resolved path, a successful handling records exactly
that path as the one read, and a mapping yielding `./dir/name.js` with base
`/root` resolves to `/root/dir/name.js`. -/
theorem c9_mapping_order_and_resolution (cfg : Config) (base url : String)
    (pre post : List (String → Option String)) (m : String → Option String)
    (p : String)
    (hm : cfg.mappings = pre ++ m :: post)
    (hpre : ∀ m2 ∈ pre, jsStrOptTruthy (m2 url) = false)
    (hmt : m url = some p) (hp : ¬ p = "") :
    findLocalPath cfg.mappings url base = some (pathResolve base p) ∧
    (∀ (entries : List Entry) (f g : String → Except Unit JsBuffer)
      (req : JsRequest), req.url = url →
      f (pathResolve base p) = g (pathResolve base p) →
      handleRequest entries cfg base f req = handleRequest entries cfg base g req) ∧
    (∀ (entries : List Entry) (f : String → Except Unit JsBuffer)
      (req : JsRequest) (res : HandlerOk), req.url = url →
      handleRequest entries cfg base f req = .ok res →
      res.readPath = some (pathResolve base p)) ∧
    pathResolve "/root" "./dir/name.js" = "/root/dir/name.js" := by
  have hfind : findLocalPath cfg.mappings url base = some (pathResolve base p) := by
    rw [hm, findLocalPath_append url base pre (m :: post) hpre, findLocalPath, hmt]
    simp only [hp, if_neg, if_false]
  refine ⟨hfind, ?_, ?_, by decide⟩
  · intro entries f g req hurl hfg
    simp only [handleRequest, hurl, hfind, hfg]
  · intro entries f req res hurl hres
    simp only [handleRequest, hurl, hfind] at hres
    split at hres
    · simp only [Except.ok.injEq] at hres
      rw [← hres]
    · split at hres
      · exact absurd hres (by simp)
      · simp only [Except.ok.injEq] at hres
        rw [← hres]

/-- C9 witness: with mappings `[no-match, empty-destination, ./dir/name.js]`
the third rule wins and the read happens at `/root/dir/name.js`. -/
theorem c9_mapping_order_and_resolution_witness :
    findLocalPath c9cfg.mappings "http://foo.bar/" "/root" =
      some (pathResolve "/root" "./dir/name.js") ∧
    (∀ (entries : List Entry) (f g : String → Except Unit JsBuffer)
      (req : JsRequest), req.url = "http://foo.bar/" →
      f (pathResolve "/root" "./dir/name.js") = g (pathResolve "/root" "./dir/name.js") →
      handleRequest entries c9cfg "/root" f req = handleRequest entries c9cfg "/root" g req) ∧
    (∀ (entries : List Entry) (f : String → Except Unit JsBuffer)
      (req : JsRequest) (res : HandlerOk), req.url = "http://foo.bar/" →
      handleRequest entries c9cfg "/root" f req = .ok res →
      res.readPath = some (pathResolve "/root" "./dir/name.js")) ∧
    pathResolve "/root" "./dir/name.js" = "/root/dir/name.js" :=
  c9_mapping_order_and_resolution c9cfg "/root" "http://foo.bar/" [c9m1, c9m2] []
    c4map "./dir/name.js" rfl (by decide) rfl (by decide)


/-! ## Claim C2 -/

theorem contentPreserved_refl (fsRead : String → Except Unit JsBuffer) (e : Entry) :
    contentPreserved fsRead e e :=
  ⟨rfl, rfl, rfl, rfl, rfl, rfl, rfl, Or.inl rfl⟩

theorem contentPreserved_decode (fsRead : String → Except Unit JsBuffer) (e : Entry) :
    contentPreserved fsRead e (setContentBuffer e (decodeContent e.response)) :=
  ⟨rfl, rfl, rfl, rfl, rfl, rfl, rfl, Or.inr (Or.inl rfl)⟩

theorem contentPreserved_file (fsRead : String → Except Unit JsBuffer) (e : Entry)
    (p : String) (b : JsBuffer) (h : fsRead p = .ok b) :
    contentPreserved fsRead e (setContentBuffer e b) :=
  ⟨rfl, rfl, rfl, rfl, rfl, rfl, rfl, Or.inr (Or.inr ⟨p, b, h, rfl⟩)⟩

theorem contentPreserved_file_decode (fsRead : String → Except Unit JsBuffer)
    (e : Entry) (b : JsBuffer) :
    contentPreserved fsRead e
      (setContentBuffer (setContentBuffer e b)
        (decodeContent (setContentBuffer e b).response)) :=
  ⟨rfl, rfl, rfl, rfl, rfl, rfl, rfl, Or.inr (Or.inl rfl)⟩

theorem forall2_refl {R : Entry → Entry → Prop} (h : ∀ a, R a a) (l : List Entry) :
    List.Forall₂ R l l :=
  List.forall₂_same.mpr (fun x _ => h x)

theorem forall2_set {R : Entry → Entry → Prop} (hrefl : ∀ a, R a a) :
    ∀ (l : List Entry) (i : Nat) (x : Entry),
      (∀ a, l[i]? = some a → R a x) → List.Forall₂ R l (l.set i x) := by
  intro l
  induction l with
  | nil => intro i x _; exact List.Forall₂.nil
  | cons hd tl ih =>
    intro i x hr
    cases i with
    | zero => exact List.Forall₂.cons (hr hd (by simp)) (forall2_refl hrefl tl)
    | succ n =>
      exact List.Forall₂.cons (hrefl hd) (ih n x (fun a ha => hr a (by simpa using ha)))

theorem serveEntry_fst (req : JsRequest) (e : Entry) (cfg : Config)
    (r : Entry × ServedResponse) (h : serveEntry req e cfg = .ok r) :
    r.1 = e ∨ r.1 = setContentBuffer e (decodeContent e.response) := by
  unfold serveEntry at h
  by_cases hb : e.response.content.buffer.isSome = true
  · rw [if_pos hb] at h
    dsimp only at h
    split at h
    · exact absurd h (by simp)
    · simp only [Except.ok.injEq] at h
      rw [← h]
      left
      rfl
  · rw [if_neg hb] at h
    dsimp only at h
    split at h
    · exact absurd h (by simp)
    · simp only [Except.ok.injEq] at h
      rw [← h]
      right
      rfl

/-- C2 (corrected): for every handled request, every recorded exchange keeps
its request, status, capture marker, headers and stored text/size/MIME type
unchanged; its cached decoded-buffer field changes only to the lazily
decoded bytes of its own stored text, or — when a local mapping matched and
the file reader succeeded — to bytes delivered by the file reader. -/
theorem c2_stored_content_preserved (entries : List Entry) (cfg : Config)
    (base : String) (fsRead : String → Except Unit JsBuffer) (req : JsRequest) :
    (match handleRequest entries cfg base fsRead req with
     | .error _ => True
     | .ok res => List.Forall₂ (contentPreserved fsRead) entries res.entries) := by
  have hrefl := contentPreserved_refl fsRead
  rcases hmi : heuristic entries req with _ | i
  · rcases hfp : findLocalPath cfg.mappings req.url base with _ | pth
    · simp only [handleRequest, hmi, hfp]
      exact forall2_refl hrefl entries
    · rcases hfr : fsRead pth with u | b
      · simp only [handleRequest, hmi, hfp, hfr]
        exact forall2_refl hrefl entries
      · rcases hse : serveEntry req (setContentBuffer (shimEntry pth) b) cfg with err | r
        · simp only [handleRequest, hmi, hfp, hfr, Option.map_none', Option.map_none, Option.getD_none, hse]
        · simp only [handleRequest, hmi, hfp, hfr, Option.map_none', Option.map_none, Option.getD_none, hse]
          exact forall2_refl hrefl entries
  · rcases hget : entries[i]? with _ | e
    · rcases hfp : findLocalPath cfg.mappings req.url base with _ | pth
      · simp only [handleRequest, hmi, hget, hfp]
        exact forall2_refl hrefl entries
      · rcases hfr : fsRead pth with u | b
        · simp only [handleRequest, hmi, hget, hfp, hfr]
          exact forall2_refl hrefl entries
        · rcases hse : serveEntry req (setContentBuffer (shimEntry pth) b) cfg
              with err | r
          · simp only [handleRequest, hmi, hget, hfp, hfr, Option.map_none', Option.map_none,
              Option.getD_none, hse]
          · simp only [handleRequest, hmi, hget, hfp, hfr, Option.map_none', Option.map_none,
              Option.getD_none, hse]
            exact forall2_refl hrefl entries
    · rcases hfp : findLocalPath cfg.mappings req.url base with _ | pth
      · by_cases hbad : entryResponseBad e.response = true
        · have hserr : serveError (some e.response) = some (captureErrorResp e.response) := by
            simp [serveError, hbad]
          simp only [handleRequest, hmi, hget, hfp, hserr, Option.map_some',
            Option.getD_some]
          exact forall2_refl hrefl entries
        · have hserr : serveError (some e.response) = none := by
            simp [serveError, hbad]
          rcases hse : serveEntry req e cfg with err | r
          · simp only [handleRequest, hmi, hget, hfp, hserr, hse, Option.map_some',
              Option.getD_some]
          · simp only [handleRequest, hmi, hget, hfp, hserr, hse, Option.map_some',
              Option.getD_some]
            apply forall2_set hrefl
            intro a ha
            rw [hget, Option.some.injEq] at ha
            subst ha
            rcases serveEntry_fst req e cfg r hse with h1 | h1
            · rw [h1]; exact hrefl e
            · rw [h1]; exact contentPreserved_decode fsRead e
      · rcases hfr : fsRead pth with u | b
        · simp only [handleRequest, hmi, hget, hfp, hfr]
          exact forall2_refl hrefl entries
        · rcases hse : serveEntry req (setContentBuffer e b) cfg with err | r
          · simp only [handleRequest, hmi, hget, hfp, hfr, Option.map_some',
              Option.getD_some, hse]
          · simp only [handleRequest, hmi, hget, hfp, hfr, Option.map_some',
              Option.getD_some, hse]
            apply forall2_set hrefl
            intro a ha
            rw [hget, Option.some.injEq] at ha
            subst ha
            rcases serveEntry_fst req (setContentBuffer e b) cfg r hse with h1 | h1
            · rw [h1]; exact contentPreserved_file fsRead e pth b hfr
            · rw [h1]; exact contentPreserved_file_decode fsRead e b

/-- The live request used for the C2 counterexample. -/
def c2req : JsRequest := { method := "GET", url := "http://h/page" }

/-- A recorded exchange for `http://h/page` whose buffer is not yet cached. -/
def c2entry : Entry :=
  { request := some { method := "GET", url := "http://h/page" }
  , response :=
    { status := some 200, harError := none, headers := []
    , content := mkContent (some "application/octet-stream") (some 5) (some "hello") } }

/-- A configuration mapping every URL to the local file `./f.bin`. -/
def c2cfg : Config :=
  { mappings := [fun _ => some "./f.bin"], replacements := []
  , responseHeaderTransforms := [] }

/-- A file reader that returns the bytes `[1, 2, 3]` for every path. -/
def c2fs : String → Except Unit JsBuffer := fun _ => .ok (.raw [1, 2, 3])

/-- C2 counterexample: serving a mapped local file for a URL that also has a
recorded entry overwrites that entry's stored content buffer with the
file's bytes — the resulting stored content differs both from the original
stored content and from the one-time lazy-decode cache of the stored text,
so handling the request does mutate the recorded exchange's stored content
beyond the lazy decode. -/
theorem c2_counterexample :
    (handleRequest [c2entry] c2cfg "/base" c2fs c2req).toOption.map
        (fun r => r.entries) =
      some [setContentBuffer c2entry (.raw [1, 2, 3])] ∧
    ¬ ((setContentBuffer c2entry (.raw [1, 2, 3])).response.content =
        c2entry.response.content) ∧
    ¬ ((setContentBuffer c2entry (.raw [1, 2, 3])).response.content =
        { c2entry.response.content with
            buffer := some (decodeContent c2entry.response) }) := by
  decide

end HarReplay
